import Mathlib

/-!
Verification of the `GroupByResult` aggregate from `tcms/core/db.py`.

The Python class is a dict-like container mapping group keys (strings) to
values that are either integers (`int`/`long`), nested `GroupByResult`
objects, or arbitrary other Python values.  It carries three extra pieces
of state besides the entry dictionary `_data`:

  - `_total_name`  : the optional key naming a ROLLUP-style precomputed total,
  - `_total_result`: the value of `_get_total()` computed once in `__init__`,
  - `_meta`        : the memoization dictionary used by `leaf_values_count`
                     (modelled as the optional cached count, since the only
                     key ever stored is the leaf count).

Machine integers do not overflow here (Python ints are unbounded), so
values are modelled by `Int`; the float results of `_get_percent` are
modelled exactly by `Rat`.  Fallible operations (dict indexing, the tuple
unpacking in `__getattr__`, the `+=`/`*` type faults) return `Except Err`.
-/

namespace Kiwi

/-- Python exceptions observable through the `GroupByResult` API.
`keyNotFound` is `KeyError`, `valueError` is the `ValueError` raised by a
failed tuple unpacking, `typeError` is the `TypeError` raised by arithmetic
on a non-numeric operand. -/
inductive Err where
  | keyNotFound
  | valueError
  | typeError
deriving DecidableEq, Repr

mutual

/-- A value stored in `GroupByResult._data`: a Python `int`/`long`
(`vInt`), a nested `GroupByResult` (`vNested`), or any other Python object
(`vOther`, e.g. a string or `None`; such values compare unequal to `0`). -/
inductive GBValue where
  | vInt : Int → GBValue
  | vOther : GBValue
  | vNested : GBR → GBValue

/-- The state of a `GroupByResult` object: `_total_name`, `_data`
(an association list with the dict's unique keys, in iteration order),
`_total_result` and the cached leaf count held in `_meta`. -/
inductive GBR where
  | mk : Option String → List (String × GBValue) → GBValue → Option Nat → GBR

end

/-- The `_total_name` field. -/
def GBR.totalName : GBR → Option String
  | .mk tn _ _ _ => tn

/-- The `_data` dictionary, as an association list. -/
def GBR.data : GBR → List (String × GBValue)
  | .mk _ d _ _ => d

/-- The `_total_result` field cached by `__init__`. -/
def GBR.totalResult : GBR → GBValue
  | .mk _ _ tr _ => tr

/-- The leaf count cached in `_meta` (`none` when the key
`value_leaf_count` is absent from the `_meta` dict). -/
def GBR.meta : GBR → Option Nat
  | .mk _ _ _ m => m

/-- Dictionary lookup in `_data` (keys are unique, first binding wins). -/
def lookupV : List (String × GBValue) → String → Option GBValue
  | [], _ => none
  | (k, v) :: rest, key => if k = key then some v else lookupV rest key

/-- Replace the binding of a key, or append a fresh binding
(`dict.__setitem__` semantics on the association list). -/
def setEntry : List (String × GBValue) → String → GBValue → List (String × GBValue)
  | [], key, v => [(key, v)]
  | (k, w) :: rest, key, v =>
      if k = key then (key, v) :: rest else (k, w) :: setEntry rest key v

/-- Drop the binding of a key (`dict.__delitem__` semantics, key present). -/
def dropEntry : List (String × GBValue) → String → List (String × GBValue)
  | [], _ => []
  | (k, w) :: rest, key =>
      if k = key then rest else (k, w) :: dropEntry rest key

/-- `GroupByResult.__contains__`. -/
def GBR.contains (g : GBR) (key : String) : Bool :=
  (lookupV g.data key).isSome

/-- `GroupByResult.__getitem__`: strict indexing, `KeyError` when absent. -/
def GBR.getItem (g : GBR) (key : String) : Except Err GBValue :=
  match lookupV g.data key with
  | some v => .ok v
  | none => .error .keyNotFound

/-- `GroupByResult.__setitem__`: mutates `_data` only — neither
`_total_result` nor `_meta` is touched. -/
def GBR.setItem (g : GBR) (key : String) (v : GBValue) : GBR :=
  match g with
  | .mk tn d tr m => .mk tn (setEntry d key v) tr m

/-- `GroupByResult.__delitem__`: `KeyError` when absent, otherwise removes
the binding; `_total_result` and `_meta` are untouched. -/
def GBR.delItem (g : GBR) (key : String) : Except Err GBR :=
  match g with
  | .mk tn d tr m =>
      match lookupV d key with
      | some _ => .ok (.mk tn (dropEntry d key) tr m)
      | none => .error .keyNotFound

/-- `GroupByResult.get(key, default=None)`: never faults, returns the
stored value or the supplied default (`none` models Python `None`). -/
def GBR.get (g : GBR) (key : String) (default : Option GBValue) : Option GBValue :=
  match lookupV g.data key with
  | some v => some v
  | none => default

/-- `GroupByResult.__len__`. -/
def GBR.size (g : GBR) : Nat := g.data.length

/-- The `empty` property: `len(self._data) == 0`. -/
def GBR.empty (g : GBR) : Bool := g.data.isEmpty

mutual

/-- `GroupByResult._get_total` (also the `total` property).  When `_data`
is empty it returns `0`; when `_total_name` is set it returns
`self[self._total_name]` directly (whatever value that is, hence the
`GBValue` result), raising `KeyError` when that key is absent; otherwise
it sums the entries. -/
def getTotal (g : GBR) : Except Err GBValue :=
  match g with
  | .mk tn d _ _ =>
    if d.isEmpty then .ok (.vInt 0)
    else
      match tn with
      | some nm =>
          match lookupV d nm with
          | some v => .ok v
          | none => .error .keyNotFound
      | none =>
          match sumEntries d 0 with
          | .ok s => .ok (.vInt s)
          | .error e => .error e

/-- The summation loop of `_get_total`: `int`/`long` entries add directly,
nested results contribute their recomputed `total` property (a non-integer
nested total makes the `+=` raise `TypeError`), and every other value is
silently skipped by the `isinstance` chain. -/
def sumEntries (l : List (String × GBValue)) (acc : Int) : Except Err Int :=
  match l with
  | [] => .ok acc
  | (_, .vInt n) :: rest => sumEntries rest (acc + n)
  | (_, .vOther) :: rest => sumEntries rest acc
  | (_, .vNested sub) :: rest =>
      match getTotal sub with
      | .ok (.vInt m) => sumEntries rest (acc + m)
      | .ok _ => .error .typeError
      | .error e => .error e

end

/-- `GroupByResult.__init__(data, total_name)`: copies `data`, eagerly
computes `_get_total()` (so a construction-time failure of the total
propagates out of the constructor), and starts with an empty `_meta`. -/
def create (data : List (String × GBValue)) (totalName : Option String) :
    Except Err GBR :=
  match getTotal (.mk totalName data (.vInt 0) none) with
  | .ok t => .ok (.mk totalName data t none)
  | .error e => .error e

/-- Python `value == 0` for a stored value: true exactly for the integer
`0` (`vOther` models non-numeric objects, which compare unequal to `0`;
a nested `GroupByResult` defines no `__eq__`, so it also compares
unequal). -/
def valIsZero : GBValue → Bool
  | .vInt n => n == 0
  | _ => false

/-- `GroupByResult._get_percent(key)`: reads the construction-time
`_total_result` (not the live `total` property), indexes `self[key]`
strictly, returns `0.0` when that cached total `== 0`, and otherwise
computes `subtotal * 100.0 / total` — which raises `TypeError` unless both
operands are numeric. -/
def getPercent (g : GBR) (key : String) : Except Err Rat :=
  let total := g.totalResult
  match g.getItem key with
  | .error e => .error e
  | .ok subtotal =>
      if valIsZero total then .ok 0
      else
        match subtotal, total with
        | .vInt s, .vInt t => .ok ((s : Rat) * 100 / (t : Rat))
        | _, _ => .error .typeError

/-- Python `cs` list holding the characters of the suffix `_percent`. -/
def percentSuffix : List Char := "_percent".toList

/-- Is `p` a prefix of `l` (used to express Python `str.endswith` on
reversed character lists)? -/
def listPre : List Char → List Char → Bool
  | [], _ => true
  | _ :: _, [] => false
  | c :: cs, d :: ds => c = d && listPre cs ds

/-- Python `name.endswith(suf)`. -/
def pyEndsWith (cs suf : List Char) : Bool :=
  listPre suf.reverse cs.reverse

/-- Python `str.split(sep)` with an explicit one-character separator:
splits at every occurrence, preserving empty pieces
(so `"_percent"` splits into `["", "percent"]` and `"a_b_percent"` into
`["a", "b", "percent"]`). -/
def pySplit (sep : Char) : List Char → List (List Char)
  | [] => [[]]
  | c :: rest =>
      let r := pySplit sep rest
      if c = sep then [] :: r
      else
        match r with
        | h :: t => (c :: h) :: t
        | [] => [[c]]

/-- `GroupByResult.__getattr__(name)`, the dynamic probe hook: when `name`
ends with `_percent` it runs `key, identifier = name.split('_')` — a
two-element tuple unpacking that raises `ValueError` whenever the split
does not yield exactly two pieces — and returns the percentage when `key`
is in `_data`; every other probe returns `0`. -/
def probe (g : GBR) (name : String) : Except Err Rat :=
  let cs := name.toList
  if pyEndsWith cs percentSuffix then
    match pySplit '_' cs with
    | [key, _ident] =>
        if g.contains (String.mk key) then getPercent g (String.mk key)
        else .ok 0
    | _ => .error .valueError
  else .ok 0

mutual

/-- `GroupByResult.leaf_values_count(value_in_row, refresh)`: returns the
cached `_meta` count when present and `refresh` is false; otherwise folds
over the entries (nested results recurse with `value_in_row` passed
through and `refresh` left at its default `False`, mutating the nested
objects' caches too; any non-nested value runs
`count = 1 if value_in_row else count + 1`), stores the count in `_meta`,
and returns it together with the updated object state. -/
def leafValuesCount (g : GBR) (valueInRow refresh : Bool) : Nat × GBR :=
  match g, refresh with
  | .mk tn d tr (some c), false => (c, .mk tn d tr (some c))
  | .mk tn d tr _, _ =>
      match countEntries d valueInRow 0 with
      | (count, d2) => (count, .mk tn d2 tr (some count))

/-- The counting loop of `leaf_values_count`, threading the running
`count` and rebuilding the entry list with the nested objects' updated
memoization state. -/
def countEntries (l : List (String × GBValue)) (valueInRow : Bool)
    (count : Nat) : Nat × List (String × GBValue) :=
  match l with
  | [] => (count, [])
  | (k, .vNested sub) :: rest =>
      match leafValuesCount sub valueInRow false with
      | (c, sub2) =>
          match countEntries rest valueInRow (count + c) with
          | (r, rest2) => (r, (k, .vNested sub2) :: rest2)
  | (k, v) :: rest =>
      match countEntries rest valueInRow (if valueInRow then 1 else count + 1) with
      | (r, rest2) => (r, (k, v) :: rest2)

end

/-- Does a stored value fall outside the `int`/`long`/`GroupByResult`
type contract? -/
def isOtherV : GBValue → Bool
  | .vOther => true
  | _ => false

mutual

/-- Specification-side reading of the total: the arithmetic sum of all
numeric leaf values reachable by depth-first traversal (`vOther` leaves
contribute nothing; they are excluded by `wfG` anyway). -/
def sumLeavesG : GBR → Int
  | .mk _ d _ _ => sumLeavesL d

/-- Depth-first leaf sum over an entry list. -/
def sumLeavesL : List (String × GBValue) → Int
  | [] => 0
  | (_, .vInt n) :: rest => n + sumLeavesL rest
  | (_, .vNested sub) :: rest => sumLeavesG sub + sumLeavesL rest
  | (_, .vOther) :: rest => sumLeavesL rest

end

mutual

/-- The hypothesis of the leaf-sum claim: no `_total_name` at any level
and every value, recursively, is an integer or a nested result. -/
def wfG : GBR → Bool
  | .mk tn d _ _ => tn.isNone && wfL d

/-- `wfG` lifted to an entry list. -/
def wfL : List (String × GBValue) → Bool
  | [] => true
  | (_, .vInt _) :: rest => wfL rest
  | (_, .vNested sub) :: rest => wfG sub && wfL rest
  | (_, .vOther) :: _ => false

end

@[simp] theorem isOtherV_vInt (n : Int) : isOtherV (.vInt n) = false := rfl

@[simp] theorem isOtherV_vOther : isOtherV .vOther = true := rfl

@[simp] theorem isOtherV_vNested (g : GBR) : isOtherV (.vNested g) = false := rfl

mutual

theorem getTotal_wf : ∀ (g : GBR), wfG g = true →
    getTotal g = Except.ok (.vInt (sumLeavesG g))
  | .mk tn d tr m, h => by
      cases tn with
      | some nm => simp [wfG] at h
      | none =>
          have hd : wfL d = true := by simpa [wfG] using h
          cases d with
          | nil => rfl
          | cons p rest =>
              have hs := sumEntries_wf (p :: rest) 0 hd
              simp [getTotal, sumLeavesG, hs]

theorem sumEntries_wf : ∀ (l : List (String × GBValue)) (acc : Int), wfL l = true →
    sumEntries l acc = Except.ok (acc + sumLeavesL l)
  | [], acc, _ => by simp [sumEntries, sumLeavesL]
  | (k, .vInt n) :: rest, acc, h => by
      have hr := sumEntries_wf rest (acc + n) (by simpa [wfL] using h)
      simp [sumEntries, sumLeavesL, hr]; ring
  | (k, .vOther) :: rest, acc, h => by simp [wfL] at h
  | (k, .vNested sub) :: rest, acc, h => by
      have hh : wfG sub = true ∧ wfL rest = true := by simpa [wfL] using h
      have hg := getTotal_wf sub hh.1
      have hr := sumEntries_wf rest (acc + sumLeavesG sub) hh.2
      simp [sumEntries, hg, hr, sumLeavesL]; ring

end

theorem sumEntries_filter_other (l : List (String × GBValue)) (acc : Int) :
    sumEntries (l.filter fun p => !(isOtherV p.2)) acc = sumEntries l acc := by
  induction l generalizing acc with
  | nil => rfl
  | cons p rest ih =>
      rcases p with ⟨k, v⟩
      cases v with
      | vInt n => simp [List.filter_cons, sumEntries]; exact ih _
      | vOther => simp [List.filter_cons, sumEntries]; exact ih _
      | vNested sub =>
          simp only [List.filter_cons, isOtherV_vNested, Bool.not_false, if_pos, sumEntries]
          cases getTotal sub with
          | ok t =>
              cases t with
              | vInt m => exact ih _
              | vOther => rfl
              | vNested s2 => rfl
          | error e => rfl

theorem countEntries_append_nested (l : List (String × GBValue)) (vir : Bool)
    (c : Nat) (k : String) (sub : GBR) :
    (countEntries (l ++ [(k, .vNested sub)]) vir c).1
      = (countEntries l vir c).1 + (leafValuesCount sub vir false).1 := by
  induction l generalizing c with
  | nil => simp [countEntries]
  | cons p rest ih =>
      rcases p with ⟨k2, v⟩
      cases v with
      | vInt n => simp [countEntries, ih]
      | vOther => simp [countEntries, ih]
      | vNested s2 => simp [countEntries, ih]

theorem countEntries_append_leaf (l : List (String × GBValue))
    (c : Nat) (k : String) (n : Int) :
    (countEntries (l ++ [(k, .vInt n)]) true c).1 = 1 := by
  induction l generalizing c with
  | nil => simp [countEntries]
  | cons p rest ih =>
      rcases p with ⟨k2, v⟩
      cases v with
      | vInt m => simp [countEntries, ih]
      | vOther => simp [countEntries, ih]
      | vNested s2 => simp [countEntries, ih]

/-- C1, counterexample: probing the name `a_b_percent` — which is neither
an entry nor of the form `<existing-key>_percent` on the empty result —
does not return 0: the two-element tuple unpacking of
`"a_b_percent".split('_') == ['a', 'b', 'percent']` raises `ValueError`. -/
theorem C1_split_fault_cex :
    probe (.mk none [] (.vInt 0) none) "a_b_percent" = .error .valueError := rfl

/-- C1, amended: derived-attribute probing returns 0 for any name that
either does not end in `_percent`, or splits on underscore into exactly
two pieces whose first piece names no existing entry; names ending in
`_percent` whose split yields any other number of pieces fault instead. -/
theorem C1_probe_default_amended (g : GBR) (name : String)
    (h : pyEndsWith name.toList percentSuffix = false ∨
         ∃ cs ids, pySplit '_' name.toList = [cs, ids] ∧
           lookupV g.data (String.mk cs) = none) :
    probe g name = .ok 0 := by
  rcases h with h | ⟨cs, ids, hsplit, hlook⟩
  · have h2 : pyEndsWith name.data percentSuffix = false := h
    simp [probe, h2]
  · by_cases he : pyEndsWith name.toList percentSuffix = true
    · have he2 : pyEndsWith name.data percentSuffix = true := he
      have hsplit2 : pySplit '_' name.data = [cs, ids] := hsplit
      simp [probe, he2, hsplit2, GBR.contains, hlook]
    · have he2 : pyEndsWith name.data percentSuffix = false := by
        simpa using he
      simp [probe, he2]

/-- C1, witness for the amended theorem at concrete inputs. -/
theorem C1_probe_default_witness :
    probe (.mk none [("A", .vInt 100)] (.vInt 100) none) "Z_percent" = .ok 0 :=
  C1_probe_default_amended (.mk none [("A", .vInt 100)] (.vInt 100) none) "Z_percent"
    (Or.inr ⟨"Z".toList, "percent".toList, rfl, rfl⟩)

/-- C2, counterexample: `_get_percent` divides by the `_total_result`
cached at construction time, not by the derived total at the time of the
probe.  Starting from `{'A': 100}` (cached total 100) and then setting
`'B'` to 100, the live total is 200, so the claim demands
`A_percent == 100 * 100 / 200 == 50`, but the code returns 100. -/
theorem C2_stale_total_cex :
    create [("A", .vInt 100)] none
      = .ok (.mk none [("A", .vInt 100)] (.vInt 100) none) ∧
    GBR.setItem (.mk none [("A", .vInt 100)] (.vInt 100) none) "B" (.vInt 100)
      = .mk none [("A", .vInt 100), ("B", .vInt 100)] (.vInt 100) none ∧
    getTotal (.mk none [("A", .vInt 100), ("B", .vInt 100)] (.vInt 100) none)
      = .ok (.vInt 200) ∧
    probe (.mk none [("A", .vInt 100), ("B", .vInt 100)] (.vInt 100) none)
      "A_percent" = .ok 100 ∧
    (100 : Rat) ≠ 100 * 100 / 200 := by
  refine ⟨rfl, rfl, rfl, ?_, by norm_num⟩
  have h : probe (.mk none [("A", .vInt 100), ("B", .vInt 100)] (.vInt 100) none)
      "A_percent" = .ok (((100 : Int) : Rat) * 100 / ((100 : Int) : Rat)) := rfl
  rw [h]; norm_num

/-- C2, amended: for a key whose name survives the two-way underscore
split and whose stored value is an integer, probing `<key>_percent`
returns `100 * value(key) / T` where `T` is the integer `_total_result`
cached at construction (not the live total), and `0.0` when that cached
total is `0` — never a divide-by-zero fault. -/
theorem C2_percent_amended (g : GBR) (name : String) (cs : List Char) (s t : Int)
    (h1 : pyEndsWith name.toList percentSuffix = true)
    (h2 : pySplit '_' name.toList = [cs, "percent".toList])
    (h3 : lookupV g.data (String.mk cs) = some (.vInt s))
    (h4 : g.totalResult = .vInt t) :
    probe g name = .ok (if t = 0 then 0 else (s : Rat) * 100 / (t : Rat)) := by
  have h1b : pyEndsWith name.data percentSuffix = true := h1
  have h2b : pySplit '_' name.data = [cs, "percent".toList] := h2
  by_cases ht : t = 0
  · simp [probe, h1b, h2b, GBR.contains, h3, getPercent, GBR.getItem, h4, valIsZero, ht]
  · simp [probe, h1b, h2b, GBR.contains, h3, getPercent, GBR.getItem, h4, valIsZero, ht]

/-- C2, witness for the amended theorem: on `{'A': 100, 'B': 200}` with
cached total 300, probing `A_percent` yields `100 * 100 / 300`. -/
theorem C2_percent_witness :
    probe (.mk none [("A", .vInt 100), ("B", .vInt 200)] (.vInt 300) none)
      "A_percent"
      = .ok (if (300 : Int) = 0 then 0 else ((100 : Int) : Rat) * 100 / ((300 : Int) : Rat)) :=
  C2_percent_amended (.mk none [("A", .vInt 100), ("B", .vInt 200)] (.vInt 300) none)
    "A_percent" ("A".toList) 100 300 rfl rfl rfl rfl

/-- C3, counterexample: a non-empty result with an entry (`'A'`) that is
neither numeric nor a nested result does not fail fast — `total()`
silently skips that entry and sums the rest. -/
theorem C3_silent_skip_cex :
    getTotal (.mk none [("A", .vOther), ("B", .vInt 5)] (.vInt 0) none)
      = .ok (.vInt 5) := rfl

/-- C3, amended: `_get_total` silently skips entries that are neither
numeric nor nested — such an entry contributes nothing to the summation
loop, and dropping all of them from the data leaves the total (value or
error) unchanged; no `InvalidEntryType` failure exists in the code. -/
theorem C3_skip_amended (k : String) (l : List (String × GBValue)) (acc : Int)
    (tr : GBValue) (m : Option Nat) :
    sumEntries ((k, .vOther) :: l) acc = sumEntries l acc ∧
    getTotal (.mk none l tr m)
      = getTotal (.mk none (l.filter fun p => !(isOtherV p.2)) tr m) := by
  refine ⟨rfl, ?_⟩
  cases l with
  | nil => rfl
  | cons p rest =>
      simp only [getTotal, List.isEmpty_cons, sumEntries_filter_other]
      cases hf : List.filter (fun p => !(isOtherV p.2)) (p :: rest) with
      | nil =>
          have hs : sumEntries (p :: rest) 0 = .ok 0 := by
            have := sumEntries_filter_other (p :: rest) 0
            rw [hf] at this
            exact this.symm
          simp [hs, sumEntries]
      | cons q qs =>
          have hs := (sumEntries_filter_other (p :: rest) 0).symm
          rw [hf] at hs
          simp [List.isEmpty_cons, hs]

end Kiwi
namespace Kiwi

/-- C4: when `leaf_values_count` actually computes (cache empty, or
`refresh` is true), the count is the fold in which a nested entry adds
that nested result's own leaf count (computed with `value_in_row` passed
through and `refresh` left false), while under `value_in_row` any leaf
entry collapses the running count for this level to exactly 1 at the
moment it is processed — so the count is 1 after a trailing leaf no
matter how many leaf entries (or what prefix) preceded it. -/
theorem C4_count_fold (g : GBR) (hm : g.meta = none)
    (l : List (String × GBValue)) (c : Nat) (k : String) (sub : GBR)
    (n : Int) (vir : Bool) :
    ((countEntries (l ++ [(k, .vNested sub)]) vir c).1
        = (countEntries l vir c).1 + (leafValuesCount sub vir false).1) ∧
    ((countEntries (l ++ [(k, .vInt n)]) true c).1 = 1) ∧
    ((leafValuesCount g vir false).1 = (countEntries g.data vir 0).1) ∧
    ((leafValuesCount g vir true).1 = (countEntries g.data vir 0).1) := by
  refine ⟨countEntries_append_nested l vir c k sub,
          countEntries_append_leaf l c k n, ?_, ?_⟩
  · rcases g with ⟨tn, d, tr, m⟩
    have hm2 : m = none := hm
    subst hm2
    simp only [leafValuesCount, GBR.data]
  · rcases g with ⟨tn, d, tr, m⟩
    cases m with
    | none => simp only [leafValuesCount, GBR.data]
    | some c0 => simp only [leafValuesCount, GBR.data]

/-- C4, witness: instantiation on the level
`[('Y', 3 leaves nested), ('Z', leaf)]` under `value_in_row`. -/
theorem C4_count_fold_witness :
    ((countEntries ([("Y", .vInt 5)] ++ [("X", .vNested (.mk none [("A", .vInt 1)] (.vInt 1) none))]) true 0).1
        = (countEntries [("Y", .vInt 5)] true 0).1
          + (leafValuesCount (.mk none [("A", .vInt 1)] (.vInt 1) none) true false).1) ∧
    ((countEntries ([("Y", .vInt 5)] ++ [("X", .vInt 7)]) true 0).1 = 1) ∧
    ((leafValuesCount (.mk none [("B", .vInt 2)] (.vInt 2) none) true false).1
        = (countEntries [("B", .vInt 2)] true 0).1) ∧
    ((leafValuesCount (.mk none [("B", .vInt 2)] (.vInt 2) none) true true).1
        = (countEntries [("B", .vInt 2)] true 0).1) :=
  C4_count_fold (.mk none [("B", .vInt 2)] (.vInt 2) none) rfl
    [("Y", .vInt 5)] 0 "X" (.mk none [("A", .vInt 1)] (.vInt 1) none) 7 true

/-- C5: for results that recursively hold only integer leaves and nested
results, with no `_total_name` at any level, the total is the depth-first
arithmetic sum of all leaf values. -/
theorem C5_total_is_leaf_sum (g : GBR) (h1 : wfG g = true)
    (_h2 : g.empty = false) :
    getTotal g = .ok (.vInt (sumLeavesG g)) :=
  getTotal_wf g h1

/-- C5, witness: the nested example `{'X': {'A': 1, 'B': 2}, 'Y': 5}`
sums to 8. -/
theorem C5_total_is_leaf_sum_witness :
    getTotal (.mk none
        [("X", .vNested (.mk none [("A", .vInt 1), ("B", .vInt 2)] (.vInt 3) none)),
         ("Y", .vInt 5)] (.vInt 8) none)
      = .ok (.vInt (sumLeavesG (.mk none
        [("X", .vNested (.mk none [("A", .vInt 1), ("B", .vInt 2)] (.vInt 3) none)),
         ("Y", .vInt 5)] (.vInt 8) none)))
    ∧ sumLeavesG (.mk none
        [("X", .vNested (.mk none [("A", .vInt 1), ("B", .vInt 2)] (.vInt 3) none)),
         ("Y", .vInt 5)] (.vInt 8) none) = 8 :=
  ⟨C5_total_is_leaf_sum _ rfl rfl, rfl⟩

/-- C6: the leaf count is memoized — with a cached `_meta` value, a call
without `refresh` returns the cache unconditionally and leaves the state
untouched; `set`/`remove` never invalidate the cache; a call with
`refresh=true` recomputes over the current entries and restores the
cache. -/
theorem C6_count_memoized (g g2 : GBR) (c : Nat) (vir : Bool) (k : String)
    (v : GBValue) (hm : g.meta = some c) (hd : g.delItem k = .ok g2) :
    leafValuesCount g vir false = (c, g) ∧
    (g.setItem k v).meta = g.meta ∧
    g2.meta = g.meta ∧
    (leafValuesCount g vir true).1 = (countEntries g.data vir 0).1 ∧
    (leafValuesCount g vir true).2.meta = some ((countEntries g.data vir 0).1) := by
  rcases g with ⟨tn, d, tr, m⟩
  have hm2 : m = some c := hm
  subst hm2
  refine ⟨by simp [leafValuesCount], by simp [GBR.setItem, GBR.meta], ?_, ?_, ?_⟩
  · simp only [GBR.delItem] at hd
    cases hl : lookupV d k with
    | some w => rw [hl] at hd; cases hd; rfl
    | none => rw [hl] at hd; cases hd
  · simp only [leafValuesCount, GBR.data]
  · simp only [leafValuesCount, GBR.data, GBR.meta]

/-- C6, witness: `{'A': 1, 'B': 2}` counted once gives a cache of 2;
after `set('C', 3)` the call without refresh still returns the stale 2,
and `refresh=true` recounts the current three entries. -/
theorem C6_count_memoized_witness :
    (leafValuesCount
        (.mk none [("A", .vInt 1), ("B", .vInt 2), ("C", .vInt 3)] (.vInt 3) (some 2))
        false false
      = (2, .mk none [("A", .vInt 1), ("B", .vInt 2), ("C", .vInt 3)] (.vInt 3) (some 2)) ∧
     (GBR.setItem
        (.mk none [("A", .vInt 1), ("B", .vInt 2), ("C", .vInt 3)] (.vInt 3) (some 2))
        "C" (.vInt 9)).meta
      = GBR.meta (.mk none [("A", .vInt 1), ("B", .vInt 2), ("C", .vInt 3)] (.vInt 3) (some 2)) ∧
     GBR.meta (.mk none [("A", .vInt 1), ("B", .vInt 2)] (.vInt 3) (some 2))
      = GBR.meta (.mk none [("A", .vInt 1), ("B", .vInt 2), ("C", .vInt 3)] (.vInt 3) (some 2)) ∧
     (leafValuesCount
        (.mk none [("A", .vInt 1), ("B", .vInt 2), ("C", .vInt 3)] (.vInt 3) (some 2))
        false true).1
      = (countEntries (GBR.data (.mk none [("A", .vInt 1), ("B", .vInt 2), ("C", .vInt 3)] (.vInt 3) (some 2))) false 0).1 ∧
     (leafValuesCount
        (.mk none [("A", .vInt 1), ("B", .vInt 2), ("C", .vInt 3)] (.vInt 3) (some 2))
        false true).2.meta
      = some ((countEntries (GBR.data (.mk none [("A", .vInt 1), ("B", .vInt 2), ("C", .vInt 3)] (.vInt 3) (some 2))) false 0).1))
    ∧ (countEntries [("A", .vInt 1), ("B", .vInt 2), ("C", .vInt 3)] false 0).1 = 3 :=
  ⟨C6_count_memoized
      (.mk none [("A", .vInt 1), ("B", .vInt 2), ("C", .vInt 3)] (.vInt 3) (some 2))
      (.mk none [("A", .vInt 1), ("B", .vInt 2)] (.vInt 3) (some 2))
      2 false "C" (.vInt 9) rfl rfl, rfl⟩

/-- C7: when `_total_name` is set and present among the entries, the
total is that entry's value, overriding summation; the total of an empty
result is 0 whatever `_total_name` is. -/
theorem C7_total_name_override (d : List (String × GBValue)) (nm : String)
    (v : GBValue) (tr tr2 : GBValue) (m m2 : Option Nat) (tn : Option String)
    (h : lookupV d nm = some v) :
    getTotal (.mk (some nm) d tr m) = .ok v ∧
    getTotal (.mk tn [] tr2 m2) = .ok (.vInt 0) := by
  constructor
  · cases d with
    | nil => simp [lookupV] at h
    | cons p rest => simp [getTotal, h]
  · rfl

/-- C7, witness: `totalKeyName='ALL'` with `{'A': 100, 'B': 200,
'ALL': 999}` gives a total of 999. -/
theorem C7_total_name_override_witness :
    getTotal (.mk (some "ALL")
        [("A", .vInt 100), ("B", .vInt 200), ("ALL", .vInt 999)] (.vInt 999) none)
      = .ok (.vInt 999) ∧
    getTotal (.mk (some "ALL") [] (.vInt 0) none) = .ok (.vInt 0) :=
  C7_total_name_override
    [("A", .vInt 100), ("B", .vInt 200), ("ALL", .vInt 999)] "ALL"
    (.vInt 999) (.vInt 999) (.vInt 0) none none (some "ALL") rfl

/-- C8: on an absent key, strict indexing and deletion raise `KeyError`
while `get` returns the supplied default without faulting. -/
theorem C8_strict_vs_default (g : GBR) (k : String) (d : Option GBValue)
    (h : lookupV g.data k = none) :
    g.getItem k = .error .keyNotFound ∧
    g.delItem k = .error .keyNotFound ∧
    g.get k d = d := by
  rcases g with ⟨tn, dd, tr, m⟩
  have h2 : lookupV dd k = none := h
  exact ⟨by simp [GBR.getItem, GBR.data, h2],
         by simp [GBR.delItem, h2],
         by simp [GBR.get, GBR.data, h2]⟩

/-- C8, witness: key `Z` is absent from `{'A': 1}`. -/
theorem C8_strict_vs_default_witness :
    GBR.getItem (.mk none [("A", .vInt 1)] (.vInt 1) none) "Z"
      = .error .keyNotFound ∧
    GBR.delItem (.mk none [("A", .vInt 1)] (.vInt 1) none) "Z"
      = .error .keyNotFound ∧
    GBR.get (.mk none [("A", .vInt 1)] (.vInt 1) none) "Z" (some (.vInt 7))
      = some (.vInt 7) :=
  C8_strict_vs_default (.mk none [("A", .vInt 1)] (.vInt 1) none) "Z"
    (some (.vInt 7)) rfl

/-- C9: a set `_total_name` that is absent from a non-empty `_data` makes
`_get_total` raise `KeyError`, and construction — which computes the
total eagerly — fails the same way instead of returning 0 or summing. -/
theorem C9_missing_total_key (d : List (String × GBValue)) (nm : String)
    (tr : GBValue) (m : Option Nat)
    (h1 : d ≠ []) (h2 : lookupV d nm = none) :
    getTotal (.mk (some nm) d tr m) = .error .keyNotFound ∧
    create d (some nm) = .error .keyNotFound := by
  cases d with
  | nil => exact absurd rfl h1
  | cons p rest =>
      have hg : ∀ (tr2 : GBValue) (m2 : Option Nat),
          getTotal (.mk (some nm) (p :: rest) tr2 m2) = .error .keyNotFound := by
        intro tr2 m2
        simp [getTotal, h2]
      exact ⟨hg tr m, by simp [create, hg (.vInt 0) none]⟩

/-- C9, witness: `total_name='ALL'` over `{'A': 1}`. -/
theorem C9_missing_total_key_witness :
    getTotal (.mk (some "ALL") [("A", .vInt 1)] (.vInt 0) none)
      = .error .keyNotFound ∧
    create [("A", .vInt 1)] (some "ALL") = .error .keyNotFound :=
  C9_missing_total_key [("A", .vInt 1)] "ALL" (.vInt 0) none
    (by simp) rfl

/-- C10: attribute-style probing of a plain existing key (one that does
not end in `_percent`) yields the 0 default, not the stored value; the
stored value is returned by the strict indexing and by `get`. -/
theorem C10_plain_name_probe_zero (g : GBR) (k : String) (v : GBValue)
    (h1 : lookupV g.data k = some v)
    (h2 : pyEndsWith k.toList percentSuffix = false) :
    probe g k = .ok 0 ∧ g.getItem k = .ok v ∧ g.get k none = some v := by
  have h2b : pyEndsWith k.data percentSuffix = false := h2
  exact ⟨by simp [probe, h2b], by simp [GBR.getItem, h1], by simp [GBR.get, h1]⟩

/-- C10, witness: probing the existing key `A` of `{'A': 100, 'B': 200}`
returns 0 while `__getitem__` and `get` return the stored 100. -/
theorem C10_plain_name_probe_zero_witness :
    probe (.mk none [("A", .vInt 100), ("B", .vInt 200)] (.vInt 300) none) "A"
      = .ok 0 ∧
    GBR.getItem (.mk none [("A", .vInt 100), ("B", .vInt 200)] (.vInt 300) none) "A"
      = .ok (.vInt 100) ∧
    GBR.get (.mk none [("A", .vInt 100), ("B", .vInt 200)] (.vInt 300) none) "A" none
      = some (.vInt 100) :=
  C10_plain_name_probe_zero
    (.mk none [("A", .vInt 100), ("B", .vInt 200)] (.vInt 300) none)
    "A" (.vInt 100) rfl rfl

end Kiwi
